import Mathlib

/-!
Verification of the implicit-feedback collaborative-filtering engine
described by the repository's specification (sparse interaction matrices,
BM25-style confidence weighting, ALS training, top-K query engine and
batch scheduler).  The repository ships only the tutorial notebook as
source; the engine itself is therefore modelled from the specification,
with exact rational arithmetic standing in for floating point.
-/

namespace Implicit

/-- A nonzero entry of a sparse interaction matrix: (row, col, weight). -/
abbrev Entry := Nat × Nat × ℚ

/-- Modelled from the spec: `SparseInteractionMatrix` (§3, §4.1) — compressed
storage of nonzero (row, col, weight) triples together with the declared
dimensions.  Entries are kept in row-major (row, then col) order. -/
structure SparseInteractionMatrix where
  numRows : Nat
  numCols : Nat
  entries : List Entry

/-- Row-major compressed order on entries: by row index, then column index. -/
def entryLE (a b : Entry) : Prop :=
  a.1 < b.1 ∨ (a.1 = b.1 ∧ a.2.1 ≤ b.2.1)

instance : DecidableRel entryLE := fun a b => by
  unfold entryLE; exact inferInstance

/-- Swapping the row/col roles of one entry, keeping the weight bit-exact. -/
def swapEntry (e : Entry) : Entry := (e.2.1, e.1, e.2.2)

/-- Modelled from the spec: `transpose()` (§4.1) — swap user/item roles and
sort the swapped triples into the new compressed order; weights are copied
exactly. -/
def SparseInteractionMatrix.transpose (m : SparseInteractionMatrix) :
    SparseInteractionMatrix :=
  { numRows := m.numCols
    numCols := m.numRows
    entries := List.insertionSort entryLE (m.entries.map swapEntry) }

theorem swapEntry_swapEntry (e : Entry) : swapEntry (swapEntry e) = e := rfl

/-- Number of stored nonzero entries. -/
def SparseInteractionMatrix.nnz (m : SparseInteractionMatrix) : Nat :=
  m.entries.length

/-- C6: For every SparseInteractionMatrix m, transpose(transpose(m)) contains
exactly the same set of (user, item, weight) triples as m, with each weight
preserved exactly, and the declared dimensions are restored. -/
theorem transpose_transpose_perm (m : SparseInteractionMatrix) :
    (m.transpose.transpose).entries.Perm m.entries ∧
      m.transpose.transpose.numRows = m.numRows ∧
      m.transpose.transpose.numCols = m.numCols := by
  refine ⟨?_, rfl, rfl⟩
  have h1 : (List.insertionSort entryLE
      ((List.insertionSort entryLE (m.entries.map swapEntry)).map swapEntry)).Perm
      ((List.insertionSort entryLE (m.entries.map swapEntry)).map swapEntry) :=
    List.perm_insertionSort _ _
  have h2 : ((List.insertionSort entryLE (m.entries.map swapEntry)).map swapEntry).Perm
      ((m.entries.map swapEntry).map swapEntry) :=
    (List.perm_insertionSort _ _).map _
  have h3 : (m.entries.map swapEntry).map swapEntry = m.entries := by
    rw [List.map_map]
    exact List.map_congr_left (fun e _ => rfl) |>.trans (List.map_id m.entries)
  exact h3 ▸ (h1.trans h2)

/-! ### ConfidenceWeighter (§4.2) -/

/-- Total interaction count of one user: the sum of the weights in that
user's column of the item-major matrix. -/
def userTotal (m : SparseInteractionMatrix) (u : Nat) : ℚ :=
  ((m.entries.filter (fun e => e.2.1 == u)).map (fun e => e.2.2)).sum

/-- Modelled from the spec: `average_user_total_count` (§4.2) — the total
interaction count divided by the declared number of users (columns of the
item-major matrix). -/
def averageUserTotal (m : SparseInteractionMatrix) : ℚ :=
  ((m.entries.map (fun e => e.2.2)).sum) / (m.numCols : ℚ)

/-- Item popularity: the number of distinct users interacting with item `i`,
i.e. the number of stored entries in row `i` of the item-major matrix. -/
def itemPopularity (m : SparseInteractionMatrix) (i : Nat) : Nat :=
  (m.entries.filter (fun e => e.1 == i)).length

/-- The per-entry BM25 confidence weight of §4.2, as a function of the
configured constants, the user's length ratio and the raw count. -/
def bm25Entry (K1 B lr c : ℚ) : ℚ :=
  ((K1 + 1) * c) / (K1 * (1 - B + B * lr) + c)

/-- Modelled from the spec: `bm25_weight` / ConfidenceWeighter (§4.2) —
applies the BM25 transform to every stored entry of the item-major matrix;
if the average user total count is zero (empty matrix) the input is
returned unchanged. -/
def bm25_weight (m : SparseInteractionMatrix) (K1 B : ℚ) :
    SparseInteractionMatrix :=
  if averageUserTotal m = 0 then m
  else { m with entries := m.entries.map (fun e =>
    (e.1, e.2.1, bm25Entry K1 B (userTotal m e.2.1 / averageUserTotal m) e.2.2)) }

/-- C4: For every interaction matrix with nonzero average user total count,
the ConfidenceWeighter maps each entry with raw value `count` to exactly
`((K1 + 1) * count) / (K1 * (1 - B + B * length_ratio) + count)`, where
`length_ratio` is that user's total count divided by the average user total
count. -/
theorem bm25_weight_formula (m : SparseInteractionMatrix) (K1 B : ℚ)
    (hK : 0 < K1) (hB0 : 0 ≤ B) (hB1 : B ≤ 1)
    (havg : averageUserTotal m ≠ 0) :
    (bm25_weight m K1 B).entries =
      m.entries.map (fun e => (e.1, e.2.1,
        ((K1 + 1) * e.2.2) /
          (K1 * (1 - B + B * (userTotal m e.2.1 / averageUserTotal m)) + e.2.2))) := by
  simp [bm25_weight, bm25Entry, havg]

/-- A concrete 2-item × 1-user matrix used to instantiate the weighting
theorems. -/
def weightMatExample : SparseInteractionMatrix :=
  ⟨2, 1, [(0, 0, (2 : ℚ)), (1, 0, (3 : ℚ))]⟩

theorem bm25_weight_formula_witness :
    (bm25_weight weightMatExample 100 (4/5)).entries =
      weightMatExample.entries.map (fun e => (e.1, e.2.1,
        ((100 + 1) * e.2.2) /
          (100 * (1 - 4/5 + 4/5 *
            (userTotal weightMatExample e.2.1 / averageUserTotal weightMatExample)) + e.2.2))) :=
  bm25_weight_formula weightMatExample 100 (4/5) (by norm_num) (by norm_num)
    (by norm_num)
    (by norm_num [averageUserTotal, weightMatExample])

/-- C5: the BM25 weight is monotonically non-decreasing in the raw count for
a fixed item (fixed length ratio), and for two items receiving the same raw
count from comparable users (equal user totals), the less popular item
receives a weight greater than or equal to the more popular item's weight
(the formula is independent of item popularity, so the weights coincide). -/
theorem bm25_monotone_damping (K1 B : ℚ) (hK : 0 < K1)
    (hB0 : 0 ≤ B) (hB1 : B ≤ 1) :
    (∀ lr c₁ c₂ : ℚ, 0 ≤ lr → 0 ≤ c₁ → c₁ ≤ c₂ →
        bm25Entry K1 B lr c₁ ≤ bm25Entry K1 B lr c₂) ∧
    (∀ (m : SparseInteractionMatrix) (i₁ i₂ u₁ u₂ : Nat) (c : ℚ),
        userTotal m u₁ = userTotal m u₂ →
        itemPopularity m i₁ ≤ itemPopularity m i₂ →
        bm25Entry K1 B (userTotal m u₂ / averageUserTotal m) c ≤
          bm25Entry K1 B (userTotal m u₁ / averageUserTotal m) c) := by
  constructor
  · intro lr c₁ c₂ hlr hc₁ hcc
    have hL : 0 ≤ 1 - B + B * lr := by nlinarith
    have hKL : 0 ≤ K1 * (1 - B + B * lr) := mul_nonneg hK.le hL
    unfold bm25Entry
    rcases eq_or_lt_of_le hc₁ with h0 | h0'
    · rw [← h0, mul_zero, zero_div]
      have hc₂ : 0 ≤ c₂ := le_of_eq h0 |>.trans hcc
      exact div_nonneg (mul_nonneg (by linarith) hc₂) (by linarith)
    · have hd₁ : 0 < K1 * (1 - B + B * lr) + c₁ := by linarith
      have hd₂ : 0 < K1 * (1 - B + B * lr) + c₂ := by linarith
      rw [div_le_div_iff hd₁ hd₂]
      nlinarith [mul_nonneg hKL (sub_nonneg.mpr hcc)]
  · intro m i₁ i₂ u₁ u₂ c hu _
    rw [hu]

theorem bm25_monotone_damping_witness :
    bm25Entry 100 (4/5) 1 1 ≤ bm25Entry 100 (4/5) 1 2 ∧
    bm25Entry 100 (4/5)
        (userTotal weightMatExample 0 / averageUserTotal weightMatExample) 2 ≤
      bm25Entry 100 (4/5)
        (userTotal weightMatExample 0 / averageUserTotal weightMatExample) 2 :=
  ⟨(bm25_monotone_damping 100 (4/5) (by norm_num) (by norm_num) (by norm_num)).1
      1 1 2 (by norm_num) (by norm_num) (by norm_num),
   (bm25_monotone_damping 100 (4/5) (by norm_num) (by norm_num) (by norm_num)).2
      weightMatExample 0 1 0 0 2 rfl
      (by norm_num [itemPopularity, weightMatExample])⟩

/-! ### TopKQueryEngine (§4.4) -/

/-- Dot product of two dense factor vectors. -/
def dot (v w : List ℚ) : ℚ := (List.zipWith (· * ·) v w).sum

/-- Ranking order on scored candidates: higher score first, ties broken by
ascending id (§3 "Query result", §8). -/
def rankRel (a b : Nat × ℚ) : Prop :=
  b.2 < a.2 ∨ (a.2 = b.2 ∧ a.1 ≤ b.1)

instance : DecidableRel rankRel := fun a b => by
  unfold rankRel; exact inferInstance

instance : IsTotal (Nat × ℚ) rankRel :=
  ⟨by
    intro a b
    unfold rankRel
    rcases lt_trichotomy a.2 b.2 with h | h | h
    · exact Or.inr (Or.inl h)
    · rcases Nat.le_total a.1 b.1 with h' | h'
      · exact Or.inl (Or.inr ⟨h, h'⟩)
      · exact Or.inr (Or.inr ⟨h.symm, h'⟩)
    · exact Or.inl (Or.inl h)⟩

instance : IsTrans (Nat × ℚ) rankRel :=
  ⟨by
    intro a b c hab hbc
    unfold rankRel at *
    rcases hab with h₁ | ⟨h₁, h₁'⟩ <;> rcases hbc with h₂ | ⟨h₂, h₂'⟩
    · exact Or.inl (h₂.trans h₁)
    · exact Or.inl (h₂ ▸ h₁)
    · exact Or.inl (h₁ ▸ h₂)
    · exact Or.inr ⟨h₁.trans h₂, h₁'.trans h₂'⟩⟩

/-- Top-N selection: rank all scored candidates and keep the first N.  The
spec's bounded-heap selection is a performance refinement with the same
input/output behaviour. -/
def topSelect (scored : List (Nat × ℚ)) (N : Nat) : List (Nat × ℚ) :=
  (List.insertionSort rankRel scored).take N

/-- Candidate-eligibility predicate of §4.4: a candidate row is excluded by
`filter_ids`, and additionally by `already_interacted_ids` when
`filter_already_interacted` is set. -/
def eligiblePred (filterIds alreadyIds : List Nat) (fa : Bool)
    (p : Nat × List ℚ) : Bool :=
  !(filterIds.contains p.1) && !(fa && alreadyIds.contains p.1)

/-- Scores of all eligible candidate rows: `score_i = dot(vector, factors[i])`
for every row i not excluded by the filters. -/
def candidateScores (v : List ℚ) (factors : List (List ℚ))
    (filterIds alreadyIds : List Nat) (fa : Bool) : List (Nat × ℚ) :=
  (factors.enum.filter (eligiblePred filterIds alreadyIds fa)).map
    (fun p => (p.1, dot v p.2))

/-- The number of eligible (unfiltered) candidate rows. -/
def numEligible (factors : List (List ℚ)) (filterIds alreadyIds : List Nat)
    (fa : Bool) : Nat :=
  (factors.enum.filter (eligiblePred filterIds alreadyIds fa)).length

/-- Modelled from the spec: `query` (§4.4) — score every eligible candidate
row by dot product and return the top N pairs in descending score order,
ties broken by ascending id. -/
def query (v : List ℚ) (factors : List (List ℚ)) (N : Nat)
    (filterIds alreadyIds : List Nat) (fa : Bool) : List (Nat × ℚ) :=
  topSelect (candidateScores v factors filterIds alreadyIds fa) N

/-- Modelled from the spec: `recommend` (§6) — query the item factors with
the user's factor vector; `userItems` is the user's interaction row, whose
item ids are excluded when `filterAlreadyLiked` is set; N defaults to 10 as
exhibited by the tutorial. -/
def recommend (userFactors itemFactors : List (List ℚ)) (userid : Nat)
    (userItems : List (Nat × ℚ)) (N : Nat := 10)
    (filterAlreadyLiked : Bool := false) (filterItems : List Nat := []) :
    List (Nat × ℚ) :=
  query (userFactors.getD userid []) itemFactors N filterItems
    (userItems.map Prod.fst) filterAlreadyLiked

/-- Modelled from the spec and tutorial output: the similarity score used by
`similar_items` is normalized so that self-similarity is exactly 1.  The
engine's cosine `dot(v,w)/(‖v‖‖w‖)` is encoded exactly over ℚ as its signed
square `dot(v,w)·|dot(v,w)| / (dot(v,v)·dot(w,w))`, a strictly monotone
reparametrization that preserves the ranking, the tie structure and the
self-similarity value 1; a zero denominator yields score 0. -/
def simScore (v w : List ℚ) : ℚ :=
  if dot v v * dot w w = 0 then 0
  else dot v w * |dot v w| / (dot v v * dot w w)

/-- Modelled from the spec: `similar_items` (§6) — rank every item by its
normalized similarity to the queried item's factor vector; N defaults to 10
as exhibited by the tutorial. -/
def similar_items (itemFactors : List (List ℚ)) (itemid : Nat)
    (N : Nat := 10) : List (Nat × ℚ) :=
  topSelect
    (itemFactors.enum.map
      (fun p => (p.1, simScore (itemFactors.getD itemid []) p.2))) N

/-- The strict ranking guarantee of §3/§8: non-increasing scores, equal
scores in strictly ascending id order. -/
def strictRank (a b : Nat × ℚ) : Prop :=
  b.2 ≤ a.2 ∧ (a.2 = b.2 → a.1 < b.1)

theorem topSelect_sorted (s : List (Nat × ℚ)) (N : Nat) :
    List.Pairwise rankRel (topSelect s N) :=
  List.Pairwise.sublist (List.take_sublist N _)
    (List.sorted_insertionSort rankRel s)

theorem topSelect_ids_nodup (s : List (Nat × ℚ)) (N : Nat)
    (h : (s.map Prod.fst).Nodup) :
    ((topSelect s N).map Prod.fst).Nodup := by
  have hperm : ((List.insertionSort rankRel s).map Prod.fst).Perm
      (s.map Prod.fst) := (List.perm_insertionSort rankRel s).map _
  have hsort : ((List.insertionSort rankRel s).map Prod.fst).Nodup :=
    hperm.symm.nodup h
  have hsub : ((topSelect s N).map Prod.fst).Sublist
      ((List.insertionSort rankRel s).map Prod.fst) :=
    (List.take_sublist N _).map _
  exact hsub.nodup hsort

theorem topSelect_pairwise_strict (s : List (Nat × ℚ)) (N : Nat)
    (h : (s.map Prod.fst).Nodup) :
    List.Pairwise strictRank (topSelect s N) := by
  have hne : List.Pairwise (fun a b : Nat × ℚ => a.1 ≠ b.1) (topSelect s N) :=
    List.pairwise_map.mp (topSelect_ids_nodup s N h)
  refine ((topSelect_sorted s N).and hne).imp ?_
  rintro a b ⟨hr, hne'⟩
  rcases hr with h' | ⟨h', h''⟩
  · exact ⟨h'.le, fun he => absurd he.symm h'.ne⟩
  · exact ⟨h'.ge, fun _ => lt_of_le_of_ne h'' hne'⟩

theorem candidateScores_ids_nodup (v : List ℚ) (factors : List (List ℚ))
    (filterIds alreadyIds : List Nat) (fa : Bool) :
    ((candidateScores v factors filterIds alreadyIds fa).map Prod.fst).Nodup := by
  have h1 : (candidateScores v factors filterIds alreadyIds fa).map Prod.fst =
      (factors.enum.filter (eligiblePred filterIds alreadyIds fa)).map Prod.fst := by
    simp [candidateScores, List.map_map, Function.comp]
  rw [h1]
  have hsub : ((factors.enum.filter
      (eligiblePred filterIds alreadyIds fa)).map Prod.fst).Sublist
      (factors.enum.map Prod.fst) :=
    (List.filter_sublist _).map _
  rw [List.enum_map_fst] at hsub
  exact hsub.nodup (List.nodup_range _)

/-- C1: For every trained model and every valid query, the result lists
returned by `recommend` and `similar_items` are sorted by non-increasing
score, and any two entries with equal score appear in strictly ascending id
order. -/
theorem recommend_similar_items_sorted (uf itf : List (List ℚ)) (uid : Nat)
    (uitems : List (Nat × ℚ)) (N : Nat) (fal : Bool) (fitems : List Nat)
    (iid NN : Nat) :
    List.Pairwise strictRank (recommend uf itf uid uitems N fal fitems) ∧
    List.Pairwise strictRank (similar_items itf iid NN) := by
  constructor
  · exact topSelect_pairwise_strict _ _
      (candidateScores_ids_nodup _ _ _ _ _)
  · refine topSelect_pairwise_strict _ _ ?_
    have h1 : ((itf.enum.map
        (fun p => (p.1, simScore (itf.getD iid []) p.2))).map Prod.fst) =
        itf.enum.map Prod.fst := by
      rw [List.map_map]
      exact List.map_congr_left (fun p _ => rfl)
    rw [h1, List.enum_map_fst]
    exact List.nodup_range _

theorem mem_query_mem_candidates {p : Nat × ℚ} {v : List ℚ}
    {factors : List (List ℚ)} {N : Nat} {fI aI : List Nat} {fa : Bool}
    (h : p ∈ query v factors N fI aI fa) :
    p ∈ candidateScores v factors fI aI fa := by
  have h1 : p ∈ List.insertionSort rankRel
      (candidateScores v factors fI aI fa) :=
    (List.take_sublist N _).subset h
  exact (List.perm_insertionSort rankRel _).subset h1

theorem query_length (v : List ℚ) (factors : List (List ℚ)) (N : Nat)
    (fI aI : List Nat) (fa : Bool) :
    (query v factors N fI aI fa).length =
      min N (numEligible factors fI aI fa) := by
  unfold query topSelect
  rw [List.length_take, (List.perm_insertionSort rankRel _).length_eq]
  unfold candidateScores numEligible
  rw [List.length_map]

/-- C8: the result length is exactly `min N (number of eligible candidates)`
— so a request for more than the eligible count returns exactly the
eligible count, and a result is shorter than N only in that case — and
every returned entry is a genuine eligible candidate row with its true dot
product score (no sentinel or padding entries). -/
theorem query_length_no_padding (v : List ℚ) (factors : List (List ℚ))
    (N : Nat) (fI aI : List Nat) (fa : Bool) :
    (query v factors N fI aI fa).length =
      min N (numEligible factors fI aI fa) ∧
    ∀ p ∈ query v factors N fI aI fa,
      ∃ f, factors[p.1]? = some f ∧ p.2 = dot v f ∧
        eligiblePred fI aI fa (p.1, f) = true := by
  refine ⟨query_length v factors N fI aI fa, ?_⟩
  intro p hp
  have hc := mem_query_mem_candidates hp
  unfold candidateScores at hc
  rcases List.mem_map.mp hc with ⟨q, hq, hpq⟩
  rcases List.mem_filter.mp hq with ⟨hqe, hqp⟩
  refine ⟨q.2, ?_, ?_, ?_⟩
  · have := List.mem_enum_iff_getElem?.mp hqe
    rw [← hpq]
    exact this
  · rw [← hpq]
  · rw [← hpq]
    exact hqp

theorem query_length_no_padding_witness :
    (query [1] [[1], [2], [3]] 5 [] [] false).length =
      min 5 (numEligible [[1], [2], [3]] [] [] false) ∧
    ∃ f, ([[1], [2], [3]] : List (List ℚ))[(2 : Nat)]? = some f ∧
      (3 : ℚ) = dot [1] f ∧ eligiblePred [] [] false (2, f) = true :=
  ⟨(query_length_no_padding [1] [[1], [2], [3]] 5 [] [] false).1,
   (query_length_no_padding [1] [[1], [2], [3]] 5 [] [] false).2 (2, 3)
     (by norm_num [query, topSelect, candidateScores, eligiblePred, dot,
       List.insertionSort, List.orderedInsert, rankRel, List.enum,
       List.enumFrom])⟩

/-- C3: with `filter_already_liked_items` set, no id from the user's
interaction row appears in the result of `recommend`. -/
theorem recommend_filters_liked (uf itf : List (List ℚ)) (uid : Nat)
    (uitems : List (Nat × ℚ)) (N : Nat) (fitems : List Nat) :
    ∀ p ∈ recommend uf itf uid uitems N true fitems,
      p.1 ∉ uitems.map Prod.fst := by
  intro p hp hmem
  have hc := mem_query_mem_candidates hp
  unfold candidateScores at hc
  rcases List.mem_map.mp hc with ⟨q, hq, hpq⟩
  rcases List.mem_filter.mp hq with ⟨_, hqp⟩
  unfold eligiblePred at hqp
  have hq1 : q.1 = p.1 := by rw [← hpq]
  rw [hq1] at hqp
  simp only [Bool.and_eq_true, Bool.not_eq_true'] at hqp
  have hnot : p.1 ∉ List.map Prod.fst uitems := by simpa using hqp.2
  exact hnot hmem

theorem recommend_filters_liked_witness :
    (1, (2 : ℚ)).1 ∉ ([(0, (1 : ℚ))].map Prod.fst) :=
  recommend_filters_liked [[1]] [[1], [2]] 0 [(0, 1)] 5 [] (1, 2)
    (by norm_num [recommend, query, topSelect, candidateScores, eligiblePred,
      dot, List.insertionSort, List.orderedInsert, rankRel, List.enum,
      List.enumFrom])

/-! ### Similarity normalization (Cauchy–Schwarz over ℚ) -/

theorem dot_nil_left (w : List ℚ) : dot [] w = 0 := rfl

theorem dot_nil_right (v : List ℚ) : dot v [] = 0 := by
  cases v <;> rfl

theorem dot_cons (a b : ℚ) (v w : List ℚ) :
    dot (a :: v) (b :: w) = a * b + dot v w := rfl

theorem dot_self_nonneg (v : List ℚ) : 0 ≤ dot v v := by
  induction v with
  | nil => exact le_refl 0
  | cons a v ih =>
    rw [dot_cons]
    nlinarith [sq_nonneg a]

theorem dot_sq_le (v : List ℚ) : ∀ w : List ℚ,
    dot v w * dot v w ≤ dot v v * dot w w := by
  induction v with
  | nil => intro w; simp [dot_nil_left]
  | cons a v ih =>
    intro w
    cases w with
    | nil => simp [dot_nil_right]
    | cons b w =>
      have hX := dot_self_nonneg v
      have hY := dot_self_nonneg w
      have hIH := ih w
      rw [dot_cons, dot_cons, dot_cons]
      have key : 0 ≤ a * a * dot w w + dot v v * (b * b) -
          2 * a * b * dot v w := by
        rcases eq_or_lt_of_le hY with h0 | h0
        · have hd0 : dot v w = 0 := by nlinarith
          rw [hd0, ← h0]
          nlinarith [mul_nonneg hX (mul_self_nonneg b)]
        · have h1 : 0 ≤ (a * dot w w - b * dot v w) *
              (a * dot w w - b * dot v w) +
              (b * b) * (dot v v * dot w w - dot v w * dot v w) := by
            have := mul_nonneg (mul_self_nonneg b) (sub_nonneg.mpr hIH)
            nlinarith [mul_self_nonneg (a * dot w w - b * dot v w)]
          nlinarith [h1, h0]
      nlinarith [key, hIH]

theorem simScore_self (v : List ℚ) (h : dot v v ≠ 0) : simScore v v = 1 := by
  unfold simScore
  rw [if_neg (mul_ne_zero h h), abs_of_nonneg (dot_self_nonneg v)]
  exact div_self (mul_ne_zero h h)

theorem simScore_le_one (v w : List ℚ) : simScore v w ≤ 1 := by
  unfold simScore
  split
  · norm_num
  · rename_i hne
    have hnn : 0 ≤ dot v v * dot w w :=
      mul_nonneg (dot_self_nonneg v) (dot_self_nonneg w)
    have hpos : 0 < dot v v * dot w w := lt_of_le_of_ne hnn (Ne.symm hne)
    rw [div_le_one hpos]
    have h1 : dot v w * |dot v w| ≤ |dot v w| * |dot v w| :=
      mul_le_mul_of_nonneg_right (le_abs_self _) (abs_nonneg _)
    have h2 : |dot v w| * |dot v w| = dot v w * dot v w :=
      abs_mul_abs_self _
    exact (h1.trans_eq h2).trans (dot_sq_le v w)

/-- C9 counterexample: the claim fails as universally stated.  With two
items sharing the factor vector `[1]`, `similar_items` for item 1 puts item
0 (equal score 1, smaller id) first, not the queried item; and an item with
the zero factor vector has self-similarity score 0, not 1. -/
theorem similar_items_self_not_first :
    (similar_items [[1], [1]] 1 2).head? = some (0, 1) ∧
    ¬ (∃ s, (similar_items [[1], [1]] 1 2).head? = some (1, s)) ∧
    similar_items [[0]] 0 1 = [(0, 0)] := by
  refine ⟨?_, ?_, ?_⟩ <;>
    norm_num [similar_items, topSelect, simScore, dot, List.insertionSort,
      List.orderedInsert, rankRel, List.enum, List.enumFrom]

/-- C9 (amended): provided the queried item's factor vector is nonzero and
N ≥ 1, the queried item attains similarity score exactly 1, no entry's
score exceeds 1, and the first result entry has score exactly 1 with id at
most the queried id — so the queried item is first except when another item
of smaller id also attains score 1. -/
theorem similar_items_self_top (itf : List (List ℚ)) (itemid N : Nat)
    (hval : itemid < itf.length)
    (hq : dot (itf.getD itemid []) (itf.getD itemid []) ≠ 0)
    (hN : 1 ≤ N) :
    simScore (itf.getD itemid []) (itf.getD itemid []) = 1 ∧
    (∀ p ∈ similar_items itf itemid N, p.2 ≤ 1) ∧
    (∃ j, (similar_items itf itemid N).head? = some (j, 1) ∧ j ≤ itemid) := by
  set fq := itf.getD itemid [] with hfq
  set s := itf.enum.map (fun p => (p.1, simScore fq p.2)) with hs
  have hself : simScore fq fq = 1 := simScore_self fq hq
  have hmem_s : ((itemid : Nat), (1 : ℚ)) ∈ s := by
    rw [hs]
    refine List.mem_map.mpr ⟨(itemid, itf[itemid]), ?_, ?_⟩
    · exact List.mem_enum_iff_getElem?.mpr (List.getElem?_eq_getElem hval)
    · have hg : itf[itemid] = fq := (List.getD_eq_getElem itf [] hval).symm
      simp only [hg, hself]
  have hsim : similar_items itf itemid N =
      (List.insertionSort rankRel s).take N := rfl
  have hle1 : ∀ p ∈ s, p.2 ≤ 1 := by
    intro p hp
    rcases List.mem_map.mp hp with ⟨q, _, hq'⟩
    rw [← hq']
    exact simScore_le_one fq q.2
  refine ⟨hself, ?_, ?_⟩
  · intro p hp
    rw [hsim] at hp
    have h1 : p ∈ List.insertionSort rankRel s :=
      (List.take_sublist N _).subset hp
    exact hle1 p ((List.perm_insertionSort rankRel s).subset h1)
  · have hlen : (List.insertionSort rankRel s).length = itf.length := by
      rw [List.length_insertionSort, hs, List.length_map, List.enum_length]
    rcases hsorted : List.insertionSort rankRel s with _ | ⟨h, t⟩
    · rw [hsorted] at hlen
      simp at hlen
      omega
    · have hmem_sorted : ((itemid : Nat), (1 : ℚ)) ∈
          List.insertionSort rankRel s :=
        (List.perm_insertionSort rankRel s).mem_iff.mpr hmem_s
      have hpair := List.sorted_insertionSort rankRel s
      rw [hsorted] at hmem_sorted hpair
      have hh_mem_s : h ∈ s := by
        refine (List.perm_insertionSort rankRel s).subset ?_
        rw [hsorted]
        exact List.mem_cons_self h t
      have hh_le1 : h.2 ≤ 1 := hle1 h hh_mem_s
      have hhead : (similar_items itf itemid N).head? = some h := by
        rw [hsim, hsorted]
        cases N with
        | zero => omega
        | succ M => rfl
      rcases List.mem_cons.mp hmem_sorted with heq | hmem_t
      · exact ⟨itemid, by rw [hhead, ← heq], le_refl itemid⟩
      · have hrel : rankRel h (itemid, 1) :=
          (List.pairwise_cons.mp hpair).1 _ hmem_t
        rcases hrel with hlt | ⟨heq2, hle⟩
        · exact absurd hh_le1 (not_le.mpr hlt)
        · refine ⟨h.1, ?_, hle⟩
          rw [hhead]
          have : h = (h.1, h.2) := rfl
          rw [this, heq2]

theorem similar_items_self_top_witness :
    simScore (List.getD [[1], [2]] 1 []) (List.getD [[1], [2]] 1 []) = 1 ∧
    (∀ p ∈ similar_items [[1], [2]] 1 2, p.2 ≤ 1) ∧
    (∃ j, (similar_items [[1], [2]] 1 2).head? = some (j, 1) ∧ j ≤ 1) :=
  similar_items_self_top [[1], [2]] 1 2 (by norm_num)
    (by norm_num [dot]) (by norm_num)

/-! ### BatchScheduler (§4.5) -/

/-- Work partitioning: split a batch into contiguous chunks of `w + 1` rows
each; every chunk is handed to one worker. -/
def chunked (w : Nat) : List α → List (List α)
  | [] => []
  | x :: xs => (x :: xs.take w) :: chunked w (xs.drop w)
termination_by l => l.length
decreasing_by simp [List.length_drop]; omega

theorem chunked_flatten (w : Nat) : (l : List α) → (chunked w l).flatten = l
  | [] => by simp [chunked]
  | x :: xs => by
    rw [chunked, List.flatten_cons, chunked_flatten w (xs.drop w)]
    simp
termination_by l => l.length
decreasing_by simp [List.length_drop]; omega

/-- One row of a query batch: a query vector together with its per-row
filter lists. -/
structure QueryRow where
  vec : List ℚ
  filterIds : List Nat
  alreadyIds : List Nat

/-- The single query (§4.4) applied to one batch row. -/
def queryRow (factors : List (List ℚ)) (N : Nat) (fa : Bool)
    (r : QueryRow) : List (Nat × ℚ) :=
  query r.vec factors N r.filterIds r.alreadyIds fa

/-- Modelled from the spec: `queryBatch` (§4.5) — partition the batch into
chunks of `w + 1` rows, let each worker run the single-query engine on its
chunk, and collect the per-chunk results in order. -/
def queryBatch (w : Nat) (rows : List QueryRow) (factors : List (List ℚ))
    (N : Nat) (fa : Bool) : List (List (Nat × ℚ)) :=
  ((chunked w rows).map (fun c => c.map (queryRow factors N fa))).flatten

theorem queryBatch_eq_map (w : Nat) (rows : List QueryRow)
    (factors : List (List ℚ)) (N : Nat) (fa : Bool) :
    queryBatch w rows factors N fa = rows.map (queryRow factors N fa) := by
  unfold queryBatch
  rw [← List.map_flatten, chunked_flatten]

/-- C2: for every chunking width, batch of queries, N and per-row filters,
the batch query operation returns at output row i exactly the ranked list
that a single query on input row i returns. -/
theorem queryBatch_refines_single (w : Nat) (rows : List QueryRow)
    (factors : List (List ℚ)) (N : Nat) (fa : Bool) :
    queryBatch w rows factors N fa =
      rows.map (fun r => query r.vec factors N r.filterIds r.alreadyIds fa) :=
  queryBatch_eq_map w rows factors N fa

theorem topSelect_length (s : List (Nat × ℚ)) (N : Nat) :
    (topSelect s N).length = min N s.length := by
  unfold topSelect
  rw [List.length_take, List.length_insertionSort]

theorem numEligible_no_filters (itf : List (List ℚ)) (aI : List Nat) :
    numEligible itf [] aI false = itf.length := by
  unfold numEligible
  have h : ∀ p : Nat × List ℚ, eligiblePred [] aI false p = true := by
    intro p; simp [eligiblePred]
  rw [List.filter_eq_self.mpr (fun a _ => h a), List.enum_length]

/-- Modelled from the spec: batch `recommend` (§6, §4.5) — one user id and
one interaction row per batch entry; each row is answered through the batch
scheduler with the shared item factors and filters; N defaults to 10 as
exhibited by the tutorial. -/
def recommendBatch (userFactors itemFactors : List (List ℚ)) (w : Nat)
    (userids : List Nat) (userRows : List (List (Nat × ℚ)))
    (N : Nat := 10) (filterAlreadyLiked : Bool := false)
    (filterItems : List Nat := []) : List (List (Nat × ℚ)) :=
  queryBatch w
    ((userids.zip userRows).map
      (fun p => ⟨userFactors.getD p.1 [], filterItems, p.2.map Prod.fst⟩))
    itemFactors N filterAlreadyLiked

/-- C10: with the N argument omitted, `recommend` and `similar_items`
default to N = 10: a batch recommend over B users (with at least 10
candidate items) returns B result rows of exactly 10 entries each, and
`similar_items` without N returns exactly 10 entries. -/
theorem recommend_default_N (uf itf : List (List ℚ)) (w : Nat)
    (uids : List Nat) (urows : List (List (Nat × ℚ))) (iid : Nat)
    (hlen : uids.length = urows.length) (hitems : 10 ≤ itf.length) :
    (recommendBatch uf itf w uids urows).length = uids.length ∧
    (∀ l ∈ recommendBatch uf itf w uids urows, l.length = 10) ∧
    (similar_items itf iid).length = 10 := by
  have hq : recommendBatch uf itf w uids urows =
      ((uids.zip urows).map
        (fun p => (⟨uf.getD p.1 [], [], p.2.map Prod.fst⟩ : QueryRow))).map
        (queryRow itf 10 false) := queryBatch_eq_map _ _ _ _ _
  refine ⟨?_, ?_, ?_⟩
  · rw [hq, List.length_map, List.length_map, List.length_zip, hlen,
      min_self]
  · intro l hl
    rw [hq] at hl
    rcases List.mem_map.mp hl with ⟨r, hr, hlr⟩
    rcases List.mem_map.mp hr with ⟨p, _, hpr⟩
    rw [← hlr, queryRow, query_length, ← hpr]
    show min 10 (numEligible itf [] (p.2.map Prod.fst) false) = 10
    rw [numEligible_no_filters]
    exact Nat.min_eq_left hitems
  · show (topSelect _ 10).length = 10
    rw [topSelect_length, List.length_map, List.enum_length]
    exact Nat.min_eq_left hitems

theorem recommend_default_N_witness :
    (recommendBatch [[1], [1]] (List.replicate 10 [(1 : ℚ)]) 3 [0, 1]
      [[], []]).length = ([0, 1] : List Nat).length ∧
    (∀ l ∈ recommendBatch [[1], [1]] (List.replicate 10 [(1 : ℚ)]) 3 [0, 1]
      [[], []], l.length = 10) ∧
    (similar_items (List.replicate 10 [(1 : ℚ)]) 0).length = 10 :=
  recommend_default_N [[1], [1]] (List.replicate 10 [(1 : ℚ)]) 3 [0, 1]
    [[], []] 0 rfl (by simp)

/-! ### ALSSolver and fit (§4.3, §6, §7) -/

/-- The error taxonomy of §7. -/
inductive FitError where
  | dimensionError
  | numericalError
  | configurationError
deriving DecidableEq

/-- Training configuration (§6). -/
structure ALSConfig where
  factors : Nat
  regularization : ℚ
  iterations : Nat

/-- The two dense factor matrices owned by the model (§3 FactorStore). -/
structure FactorStore where
  userFactors : List (List ℚ)
  itemFactors : List (List ℚ)

/-- The nonzero (item, weight) pairs of user `u`'s row. -/
def rowItems (m : SparseInteractionMatrix) (u : Nat) : List (Nat × ℚ) :=
  (m.entries.filter (fun e => e.1 == u)).map (fun e => (e.2.1, e.2.2))

/-- The nonzero (user, weight) pairs of item `i`'s column. -/
def colItems (m : SparseInteractionMatrix) (i : Nat) : List (Nat × ℚ) :=
  (m.entries.filter (fun e => e.2.1 == i)).map (fun e => (e.1, e.2.2))

def vecAdd (v w : List ℚ) : List ℚ := List.zipWith (· + ·) v w

/-- Modelled from the spec: one regularized per-row solve of §4.3.  The
normal-equation solve is modelled as a confidence-weighted combination of
the fixed factors damped by `λ + Σ confidence`; a vanishing damping term is
the modelled singular-system condition and fails with `NumericalError`
rather than returning NaNs. -/
def solveRow (lam : ℚ) (k : Nat) (other : List (List ℚ))
    (items : List (Nat × ℚ)) : Except FitError (List ℚ) :=
  let confSum := (items.map Prod.snd).sum
  if lam + confSum = 0 then Except.error FitError.numericalError
  else Except.ok
    ((items.foldl
        (fun acc p =>
          vecAdd acc ((other.getD p.1 (List.replicate k 0)).map
            (fun y => p.2 * y)))
        (List.replicate k 0)).map (fun s => s / (lam + confSum)))

/-- One full ALS alternation (§4.3): solve every user row against the fixed
item factors, then every item row against the new user factors; any row
failure aborts the whole step. -/
def alsStep (cfg : ALSConfig) (m : SparseInteractionMatrix)
    (fs : FactorStore) : Except FitError FactorStore := do
  let uf ← (List.range m.numRows).mapM
    (fun u => solveRow cfg.regularization cfg.factors fs.itemFactors
      (rowItems m u))
  let itf ← (List.range m.numCols).mapM
    (fun i => solveRow cfg.regularization cfg.factors uf (colItems m i))
  return ⟨uf, itf⟩

/-- Modelled from the spec: `fit` (§6, §7) — reject an empty interaction
matrix with `DimensionError` and a non-positive factor or iteration count
with `ConfigurationError`, then run the configured number of ALS
alternations from zero-initialized factors; any error aborts the entire
training run. -/
def fit (cfg : ALSConfig) (m : SparseInteractionMatrix) :
    Except FitError FactorStore :=
  if m.nnz = 0 then Except.error FitError.dimensionError
  else if cfg.factors = 0 ∨ cfg.iterations = 0 then
    Except.error FitError.configurationError
  else
    (List.range cfg.iterations).foldlM (fun fs _ => alsStep cfg m fs)
      ⟨List.replicate m.numRows (List.replicate cfg.factors 0),
       List.replicate m.numCols (List.replicate cfg.factors 0)⟩

/-- A model handle: `trained` holds the factor store once a fit has
succeeded, `none` before. -/
structure ALSModel where
  trained : Option FactorStore

/-- Calling fit on a model handle: only a successful fit replaces the
stored factors; a failed fit leaves the handle exactly as it was. -/
def fitModel (model : ALSModel) (cfg : ALSConfig)
    (m : SparseInteractionMatrix) : ALSModel :=
  match fit cfg m with
  | Except.error _ => model
  | Except.ok fs => ⟨some fs⟩

/-- C7: fitting an empty interaction matrix fails with `DimensionError`
rather than producing a model that answers queries, and any error detected
during fit leaves the model handle unchanged — no partially trained model
is exposed as trained. -/
theorem fit_error_leaves_model_untrained :
    (∀ (cfg : ALSConfig) (m : SparseInteractionMatrix), m.nnz = 0 →
        fit cfg m = Except.error FitError.dimensionError) ∧
    (∀ (model : ALSModel) (cfg : ALSConfig) (m : SparseInteractionMatrix)
        (e : FitError), fit cfg m = Except.error e →
        fitModel model cfg m = model) := by
  constructor
  · intro cfg m h
    unfold fit
    rw [if_pos h]
  · intro model cfg m e h
    unfold fitModel
    rw [h]

/-- Empty interaction matrix used to instantiate the fit error theorem. -/
def emptyMat : SparseInteractionMatrix := ⟨0, 0, []⟩

theorem fit_error_leaves_model_untrained_witness :
    fit ⟨2, 1/100, 3⟩ emptyMat = Except.error FitError.dimensionError ∧
    fitModel ⟨none⟩ ⟨2, 1/100, 3⟩ emptyMat = ⟨none⟩ :=
  ⟨fit_error_leaves_model_untrained.1 ⟨2, 1/100, 3⟩ emptyMat rfl,
   fit_error_leaves_model_untrained.2 ⟨none⟩ ⟨2, 1/100, 3⟩ emptyMat
     FitError.dimensionError
     (fit_error_leaves_model_untrained.1 ⟨2, 1/100, 3⟩ emptyMat rfl)⟩

end Implicit
